import Mathlib

/-!
Verification of the tubertc peer-diagnostics layer (`DebugConsole`).

The JavaScript source (`DebugConsole` object) implements a small
request/response correlation protocol over a peer-messaging channel:
a transaction registry (`_txid`, `_transactionMap`, `_getTxid`,
`_registerTransaction`), a message dispatcher
(`Listener.handlePeerMessage`), and a fan-out aggregator
(`Client.getP2PDiagnostics` built on `Client.getP2PDiagnosticForPeerId`).

This file gives a shallow embedding of that code and proves the
specified properties about it.  JavaScript values that flow through the
envelopes are modelled by `JSVal`; JavaScript numbers that appear as
transaction identifiers are modelled by `Int` (the program only ever
issues natural-number identifiers); a JavaScript object literal used as
a map is modelled as an insertion-ordered association list, matching
the key semantics of `obj[k] = v`, `delete obj[k]` and `Object.keys`.
Callbacks stored in the transaction map are kept opaque: the dispatcher
is parametrised by a callback type `kappa`, and an invocation of a
callback is recorded as an effect rather than executed.  The concrete
closure `appendDataFn` created by `getP2PDiagnostics` is then given its
semantics separately, mirroring its body.  `ErrorMetric.log` and
`console.log` lines are modelled as `LogEvent` effects (one event per
source log site); their exact text carries no specified meaning.
-/

set_option autoImplicit false

namespace DebugConsole

/-- A JavaScript value as it appears in a diagnostics envelope: a
string, a number, an object (insertion-ordered field list), or
`undefined` (also standing for an absent field). -/
inductive JSVal where
  | vstr : String → JSVal
  | vnum : Int → JSVal
  | vobj : List (String × JSVal) → JSVal
  | vundef : JSVal

/-- Mirrors the JavaScript typeof-number test on a value. -/
def JSVal.isNum : JSVal → Bool
  | JSVal.vnum _ => true
  | _ => false

/-- Mirrors the JavaScript test `v === undefined`. -/
def JSVal.isUndef : JSVal → Bool
  | JSVal.vundef => true
  | _ => false

/-- The numeric value of a `JSVal`; only used under an `isNum` guard. -/
def JSVal.numVal : JSVal → Int
  | JSVal.vnum n => n
  | _ => 0

/-- An inbound or outbound envelope on the `debug` channel.  The
source accesses exactly the fields `opcode`, `id` and `data` of
`content`; a field absent from the JavaScript object reads as
`undefined`, which is `JSVal.vundef` here. -/
structure Content where
  opcode : JSVal
  id : JSVal
  data : JSVal

/-- The view of the VTC client object consumed by the diagnostics
code: `client.getId()`, `Object.keys(vtcObj.roomList)` and
`client.getConnectStatus(peerId)`. -/
structure Client where
  clientId : String
  roomList : List String
  connectStatus : String → String

/-- One diagnostic log produced by a source log site (each constructor
stands for one `ErrorMetric.log` group in the source). -/
inductive LogEvent where
  | requestHandled : String → LogEvent
  | invalidId : Int → LogEvent
  | unsupportedOpcode : JSVal → LogEvent
  | badOpcodeType : Content → LogEvent

/-- One call to `client.sendPeerMessage({rtcId: ...}, channel, body)`. -/
structure SentMsg where
  rtcId : String
  channel : String
  body : Content

/-- The observable effects of one dispatcher or client call:
messages sent, transaction callbacks invoked (with their payload),
and diagnostic logs. -/
structure Effects (kappa : Type) where
  sent : List SentMsg
  invoked : List (kappa × JSVal)
  logs : List LogEvent

/-- The mutable state of the `DebugConsole` singleton: the `_txid`
counter and the `_transactionMap` object, keyed by transaction id. -/
structure DCState (kappa : Type) where
  txid : Nat
  transactionMap : List (Int × kappa)

/-- Mirrors `DebugConsole._getTxid`: `return this._txid++`. -/
def getTxid {kappa : Type} (s : DCState kappa) : Nat × DCState kappa :=
  (s.txid, { s with txid := s.txid + 1 })

/-- JavaScript object-key lookup `m[id]` on an association list:
the first entry with the given key, if any. -/
def lookupTx {kappa : Type} (m : List (Int × kappa)) (id : Int) : Option kappa :=
  (m.find? (fun p => p.1 == id)).map Prod.snd

/-- JavaScript assignment `m[id] = cb`: overwrite the existing entry in
place if the key is present, otherwise append a new entry. -/
def setTx {kappa : Type} (m : List (Int × kappa)) (id : Int) (cb : kappa) :
    List (Int × kappa) :=
  if m.any (fun p => p.1 == id) then
    m.map (fun p => if p.1 == id then (id, cb) else p)
  else
    m ++ [(id, cb)]

/-- JavaScript `delete m[id]`: remove the entry with the given key. -/
def eraseTx {kappa : Type} (m : List (Int × kappa)) (id : Int) :
    List (Int × kappa) :=
  m.eraseP (fun p => p.1 == id)

/-- Mirrors `DebugConsole._registerTransaction(id, completionFn)`:
`this._transactionMap[id] = completionFn`. -/
def registerTransaction {kappa : Type} (id : Int) (completionFn : kappa)
    (s : DCState kappa) : DCState kappa :=
  { s with transactionMap := setTx s.transactionMap id completionFn }

/-- JavaScript assignment `o[k] = v` on a string-keyed object. -/
def objSet (o : List (String × JSVal)) (k : String) (v : JSVal) :
    List (String × JSVal) :=
  if o.any (fun p => p.1 == k) then
    o.map (fun p => if p.1 == k then (k, v) else p)
  else
    o ++ [(k, v)]

/-- The loop body of the connectivity-status responder: for each
`roomList` entry other than the local id, store
`client.getConnectStatus(peerId)` under that peer id. -/
def connectData (client : Client) : List (String × JSVal) :=
  client.roomList.foldl
    (fun acc pid =>
      if pid ≠ client.clientId then
        objSet acc pid (JSVal.vstr (client.connectStatus pid))
      else acc)
    []

/-- The `roomConnectStatus` object built by the responder:
`{ myPeerId: client.getId(), data: {...} }`. -/
def roomConnectStatusFor (client : Client) : JSVal :=
  JSVal.vobj [("myPeerId", JSVal.vstr client.clientId),
              ("data", JSVal.vobj (connectData client))]

/-- Mirrors `DebugConsole.Listener.handlePeerMessage(client, peerId,
content)`.  The branch structure follows the source exactly: a string
`opcode` is required; `testP2PConnection` with a numeric `id` answers
with the local room-connectivity status; `response` with a defined
`data` and a numeric `id` resolves the matching transaction (invoking
and deleting it) or logs an invalid id; anything else is logged and
dropped. -/
def handlePeerMessage {kappa : Type} (client : Client) (peerId : String)
    (content : Content) (s : DCState kappa) : DCState kappa × Effects kappa :=
  match content.opcode with
  | JSVal.vstr op =>
    if op = "testP2PConnection" ∧ content.id.isNum = true then
      (s, { sent := [{ rtcId := peerId, channel := "debug",
                       body := { opcode := JSVal.vstr "response",
                                 id := content.id,
                                 data := roomConnectStatusFor client } }],
            invoked := [],
            logs := [LogEvent.requestHandled peerId] })
    else if op = "response" ∧ content.data.isUndef = false ∧
        content.id.isNum = true then
      match lookupTx s.transactionMap content.id.numVal with
      | some transaction =>
        ({ s with transactionMap := eraseTx s.transactionMap content.id.numVal },
         { sent := [], invoked := [(transaction, content.data)], logs := [] })
      | none =>
        (s, { sent := [], invoked := [],
              logs := [LogEvent.invalidId content.id.numVal] })
    else
      (s, { sent := [], invoked := [],
            logs := [LogEvent.unsupportedOpcode (JSVal.vstr op)] })
  | _ =>
    (s, { sent := [], invoked := [],
          logs := [LogEvent.badOpcodeType content] })

/-- Mirrors `Client.getP2PDiagnosticForPeerId(peerId, completionFn)`.
An absent argument (`undefined`) is modelled as `none`.  On missing
arguments the source prints a usage message and returns `false`;
otherwise it allocates a transaction id, sends the probe, registers
the transaction, and returns `undefined` (`none` here). -/
def getP2PDiagnosticForPeerId {kappa : Type} (peerId : Option String)
    (completionFn : Option kappa) (s : DCState kappa) :
    Option Bool × DCState kappa × List SentMsg :=
  match peerId, completionFn with
  | some pid, some fn =>
    let r := getTxid s
    let msg : SentMsg :=
      { rtcId := pid, channel := "debug",
        body := { opcode := JSVal.vstr "testP2PConnection",
                  id := JSVal.vnum (r.1 : Int),
                  data := JSVal.vundef } }
    (none, registerTransaction (r.1 : Int) fn r.2, [msg])
  | _, _ => (some false, s, [])

/-- The per-call state of one `Client.getP2PDiagnostics` invocation:
the shared `DebugConsole` state together with the closure state of
`appendDataFn` (`roomSize`, `results`) and the record of every
invocation of the completion callback `completionFn` with its argument.  All
transactions registered by the call share the single closure
`appendDataFn`, so the callback type is `Unit`. -/
structure DiagSession where
  dc : DCState Unit
  roomSize : Nat
  results : List JSVal
  completions : List (List JSVal)

/-- Mirrors the body of `appendDataFn` in `getP2PDiagnostics`:
push the payload onto `results`; when `results.length === roomSize`,
call `completionFn(results)`. -/
def appendData (roomSize : Nat) (acc : List JSVal × List (List JSVal))
    (data : JSVal) : List JSVal × List (List JSVal) :=
  let results := acc.1 ++ [data]
  if results.length = roomSize then
    (results, acc.2 ++ [results])
  else
    (results, acc.2)

/-- One iteration of the request loop in `getP2PDiagnostics`: issue a
`getP2PDiagnosticForPeerId` call for one peer, threading the
`DebugConsole` state and collecting the sent probes. -/
def diagStep (acc : DCState Unit × List SentMsg) (pid : String) :
    DCState Unit × List SentMsg :=
  let c := getP2PDiagnosticForPeerId (some pid) (some ()) acc.1
  (c.2.1, acc.2 ++ c.2.2)

/-- Mirrors `Client.getP2PDiagnostics(completionFn)`.  On a missing
callback the source prints a usage message and returns `false`.
Otherwise it filters the local id out of the room list, sets up the
`appendDataFn` closure over an empty `results` array, and issues one
`getP2PDiagnosticForPeerId` call per remaining peer. -/
def getP2PDiagnostics (client : Client) (completionFn : Option Unit)
    (s : DCState Unit) : Option Bool × DiagSession × List SentMsg :=
  match completionFn with
  | none => (some false, { dc := s, roomSize := 0, results := [], completions := [] }, [])
  | some _ =>
    let myId := client.clientId
    let roomList := client.roomList.filter (fun elem => elem ≠ myId)
    let roomSize := roomList.length
    let r := roomList.foldl diagStep (s, [])
    (none, { dc := r.1, roomSize := roomSize, results := [], completions := [] }, r.2)

/-- One inbound dispatcher event during a diagnostics session: the
message is dispatched, and every invocation of the registered
`appendDataFn` callback is executed against the closure state. -/
def sessionStep (client : Client) (sess : DiagSession)
    (ev : String × Content) : DiagSession :=
  let r := handlePeerMessage client ev.1 ev.2 sess.dc
  let rc := r.2.invoked.foldl
    (fun acc inv => appendData sess.roomSize acc inv.2)
    (sess.results, sess.completions)
  { dc := r.1, roomSize := sess.roomSize, results := rc.1, completions := rc.2 }

/-- Run a diagnostics session over a list of inbound events. -/
def runSession (client : Client) (sess : DiagSession)
    (evs : List (String × Content)) : DiagSession :=
  evs.foldl (sessionStep client) sess

/-- Iterate `getTxid` `n` times, collecting the returned identifiers. -/
def getTxidN {kappa : Type} (s : DCState kappa) : Nat → List Nat × DCState kappa
  | 0 => ([], s)
  | n + 1 =>
    let r := getTxid s
    let rest := getTxidN r.2 n
    (r.1 :: rest.1, rest.2)

/-- JavaScript field read `v[k]` on an object value (`undefined` when
absent or when `v` is not an object). -/
def getField (v : JSVal) (k : String) : JSVal :=
  match v with
  | JSVal.vobj fields => ((fields.find? (fun p => p.1 == k)).map Prod.snd).getD JSVal.vundef
  | _ => JSVal.vundef

/-- The list of peer identifiers keyed in the `data` sub-object of a
responder payload. -/
def statusKeys (v : JSVal) : List String :=
  match getField v "data" with
  | JSVal.vobj d => d.map Prod.fst
  | _ => []

/-- The guard structure of the dispatcher: `true` exactly when the
envelope matches one of the two recognized shapes (probe with numeric
id, or response with defined data and numeric id). -/
def recognizedEnvelope (c : Content) : Bool :=
  match c.opcode with
  | JSVal.vstr op =>
    (op == "testP2PConnection" && c.id.isNum) ||
      (op == "response" && !c.data.isUndef && c.id.isNum)
  | _ => false

/-! ### Association-list helper lemmas -/

theorem lookupTx_eq_none {kappa : Type} {m : List (Int × kappa)} {x : Int}
    (h : x ∉ m.map Prod.fst) : lookupTx m x = none := by
  unfold lookupTx
  rw [List.find?_eq_none.mpr]
  · rfl
  · intro p hp hbeq
    exact h (List.mem_map.mpr ⟨p, hp, by simpa using hbeq⟩)

theorem setTx_fresh {kappa : Type} {m : List (Int × kappa)} {x : Int}
    (cb : kappa) (h : x ∉ m.map Prod.fst) : setTx m x cb = m ++ [(x, cb)] := by
  have hany : m.any (fun p => p.1 == x) = false := by
    rw [List.any_eq_false]
    intro p hp hbeq
    exact h (List.mem_map.mpr ⟨p, hp, by simpa using hbeq⟩)
  simp [setTx, hany]

theorem lookupTx_append_single {kappa : Type} {m : List (Int × kappa)} {x : Int}
    (cb : kappa) (h : x ∉ m.map Prod.fst) :
    lookupTx (m ++ [(x, cb)]) x = some cb := by
  unfold lookupTx
  rw [List.find?_append, List.find?_eq_none.mpr, Option.none_or]
  · simp [List.find?]
  · intro p hp hbeq
    exact h (List.mem_map.mpr ⟨p, hp, by simpa using hbeq⟩)

theorem eraseTx_append_single {kappa : Type} {m : List (Int × kappa)} {x : Int}
    (cb : kappa) (h : x ∉ m.map Prod.fst) : eraseTx (m ++ [(x, cb)]) x = m := by
  unfold eraseTx
  rw [List.eraseP_append_right]
  · simp [List.eraseP_cons]
  · intro p hp hbeq
    exact h (List.mem_map.mpr ⟨p, hp, by simpa using hbeq⟩)

/-! ### Claims about the transaction-id allocator and the registry -/

/-- C7: transaction identifiers returned by successive `_getTxid` calls
are the consecutive naturals starting at the current counter, hence
strictly increasing and never repeated; the calls change nothing but
the counter, which they increment once each. -/
theorem getTxid_strictly_increasing {kappa : Type} (n : Nat) (s : DCState kappa) :
    (getTxidN s n).1 = List.range' s.txid n ∧
    List.Pairwise (· < ·) (getTxidN s n).1 ∧
    (getTxidN s n).2.txid = s.txid + n ∧
    (getTxidN s n).2.transactionMap = s.transactionMap := by
  have key : ∀ (k : Nat) (t : DCState kappa),
      (getTxidN t k).1 = List.range' t.txid k ∧
      (getTxidN t k).2.txid = t.txid + k ∧
      (getTxidN t k).2.transactionMap = t.transactionMap := by
    intro k
    induction k with
    | zero => intro t; simp [getTxidN]
    | succ k ih =>
      intro t
      obtain ⟨h1, h2, h3⟩ := ih { t with txid := t.txid + 1 }
      refine ⟨?_, ?_, ?_⟩
      · simp [getTxidN, getTxid, h1, List.range'_succ]
      · simp [getTxidN, getTxid, h2]
        omega
      · simp [getTxidN, getTxid, h3]
  obtain ⟨h1, h2, h3⟩ := key n s
  refine ⟨h1, ?_, h2, h3⟩
  rw [h1]
  exact List.pairwise_lt_range' s.txid n

/-- C9: calling `getP2PDiagnosticForPeerId` with a missing peer id or
missing callback returns the failure value `false` synchronously,
leaves the `DebugConsole` state untouched (no transaction registered,
no id allocated) and sends nothing; likewise `getP2PDiagnostics`
without a callback. -/
theorem missing_arguments_fail {kappa : Type} (s : DCState kappa)
    (sU : DCState Unit) (client : Client) (peerId : Option String)
    (completionFn : Option kappa)
    (h : peerId = none ∨ completionFn = none) :
    getP2PDiagnosticForPeerId peerId completionFn s = (some false, s, []) ∧
    getP2PDiagnostics client none sU =
      (some false, { dc := sU, roomSize := 0, results := [], completions := [] }, []) := by
  refine ⟨?_, rfl⟩
  rcases h with h | h
  · subst h
    cases completionFn <;> rfl
  · subst h
    cases peerId <;> rfl

/-- C9 witness: both entry points at concrete inputs. -/
theorem missing_arguments_fail_witness :
    ((none : Option String) = none ∨ (none : Option Unit) = none) ∧
    (getP2PDiagnosticForPeerId (none : Option String) (none : Option Unit)
        { txid := 0, transactionMap := [] } =
      (some false, { txid := 0, transactionMap := [] }, []) ∧
    getP2PDiagnostics
        { clientId := "A", roomList := ["A"], connectStatus := fun _ => "" }
        none { txid := 0, transactionMap := [] } =
      (some false,
       { dc := { txid := 0, transactionMap := [] }, roomSize := 0,
         results := [], completions := [] }, [])) :=
  ⟨Or.inl rfl,
   missing_arguments_fail { txid := 0, transactionMap := [] }
     { txid := 0, transactionMap := [] }
     { clientId := "A", roomList := ["A"], connectStatus := fun _ => "" }
     none none (Or.inl rfl)⟩

/-- C10: a `response` envelope with a numeric id but absent `data`
falls into the unsupported-opcode branch: it is logged and dropped,
no callback is invoked, the registry is untouched, and any
transaction registered under that id stays pending. -/
theorem response_without_data_dropped {kappa : Type} (client : Client)
    (peerId : String) (x : Int) (s : DCState kappa) :
    handlePeerMessage client peerId
        { opcode := JSVal.vstr "response", id := JSVal.vnum x,
          data := JSVal.vundef } s =
      (s, { sent := [], invoked := [],
            logs := [LogEvent.unsupportedOpcode (JSVal.vstr "response")] }) ∧
    lookupTx (handlePeerMessage client peerId
        { opcode := JSVal.vstr "response", id := JSVal.vnum x,
          data := JSVal.vundef } s).1.transactionMap x =
      lookupTx s.transactionMap x := by
  constructor
  · simp [handlePeerMessage, JSVal.isUndef]
  · simp [handlePeerMessage, JSVal.isUndef]

/-- C4: resolving an unregistered transaction id (a `response`
envelope with present payload for an unknown id) invokes no callback,
changes nothing in the state, sends nothing, and produces only the
diagnostic invalid-id log. -/
theorem resolve_unregistered_noop {kappa : Type} (client : Client)
    (peerId : String) (x : Int) (p : JSVal) (s : DCState kappa)
    (hx : lookupTx s.transactionMap x = none) (hp : p.isUndef = false) :
    handlePeerMessage client peerId
        { opcode := JSVal.vstr "response", id := JSVal.vnum x, data := p } s =
      (s, { sent := [], invoked := [], logs := [LogEvent.invalidId x] }) := by
  simp [handlePeerMessage, JSVal.isNum, JSVal.numVal, hp, hx]

/-- C4 witness: resolving id 5 on an empty registry with an object
payload. -/
theorem resolve_unregistered_noop_witness :
    (lookupTx ([] : List (Int × Unit)) 5 = none ∧
      (JSVal.vobj []).isUndef = false) ∧
    handlePeerMessage
        { clientId := "A", roomList := ["A"], connectStatus := fun _ => "" }
        "B" { opcode := JSVal.vstr "response", id := JSVal.vnum 5,
              data := JSVal.vobj [] }
        ({ txid := 0, transactionMap := [] } : DCState Unit) =
      ({ txid := 0, transactionMap := [] },
       { sent := [], invoked := [], logs := [LogEvent.invalidId 5] }) :=
  ⟨⟨rfl, rfl⟩,
   resolve_unregistered_noop
     { clientId := "A", roomList := ["A"], connectStatus := fun _ => "" }
     "B" 5 (JSVal.vobj []) { txid := 0, transactionMap := [] } rfl rfl⟩

/-- A `response` envelope carrying transaction id `x` and payload `p`. -/
def respEnvelope (x : Int) (p : JSVal) : Content :=
  { opcode := JSVal.vstr "response", id := JSVal.vnum x, data := p }

/-- C3: after registering callback `cb` under a fresh id `x`, the
first `response` envelope for `x` with payload `p` invokes `cb`
exactly once with exactly `p` and removes `x` from the registry
(restoring the previous map), and a second resolve of `x` with any
payload invokes no callback. -/
theorem register_resolve_exactly_once {kappa : Type}
    (client client2 : Client) (pid pid2 : String) (cb : kappa) (x : Int)
    (p p2 : JSVal) (s : DCState kappa)
    (hx : x ∉ s.transactionMap.map Prod.fst) (hp : p.isUndef = false) :
    (handlePeerMessage client pid (respEnvelope x p)
        (registerTransaction x cb s)).2.invoked = [(cb, p)] ∧
    (handlePeerMessage client pid (respEnvelope x p)
        (registerTransaction x cb s)).1.transactionMap = s.transactionMap ∧
    (handlePeerMessage client2 pid2 (respEnvelope x p2)
        (handlePeerMessage client pid (respEnvelope x p)
          (registerTransaction x cb s)).1).2.invoked = [] := by
  have hmap1 : (registerTransaction x cb s).transactionMap =
      s.transactionMap ++ [(x, cb)] := by
    simp [registerTransaction, setTx_fresh cb hx]
  have hlook : lookupTx (registerTransaction x cb s).transactionMap x = some cb := by
    rw [hmap1]
    exact lookupTx_append_single cb hx
  have h1 : handlePeerMessage client pid (respEnvelope x p)
      (registerTransaction x cb s) =
      ({ txid := s.txid, transactionMap := s.transactionMap },
       { sent := [], invoked := [(cb, p)], logs := [] }) := by
    simp [handlePeerMessage, respEnvelope, JSVal.isNum, JSVal.numVal, hp, hlook]
    rw [hmap1]
    exact ⟨rfl, eraseTx_append_single cb hx⟩
  refine ⟨by rw [h1], by rw [h1], ?_⟩
  rw [h1]
  cases hcase : p2.isUndef with
  | true => simp [handlePeerMessage, respEnvelope, hcase]
  | false =>
    simp [handlePeerMessage, respEnvelope, JSVal.isNum, JSVal.numVal, hcase,
      lookupTx_eq_none hx]

/-- C3 witness: register id 0 on an empty registry, resolve it twice. -/
theorem register_resolve_exactly_once_witness :
    ((0 : Int) ∉ ([] : List (Int × Nat)).map Prod.fst ∧
      (JSVal.vstr "payload").isUndef = false) ∧
    ((handlePeerMessage
        { clientId := "A", roomList := ["A"], connectStatus := fun _ => "" }
        "B" (respEnvelope 0 (JSVal.vstr "payload"))
        (registerTransaction 0 7
          ({ txid := 1, transactionMap := [] } : DCState Nat))).2.invoked =
      [(7, JSVal.vstr "payload")] ∧
    (handlePeerMessage
        { clientId := "A", roomList := ["A"], connectStatus := fun _ => "" }
        "B" (respEnvelope 0 (JSVal.vstr "payload"))
        (registerTransaction 0 7
          ({ txid := 1, transactionMap := [] } : DCState Nat))).1.transactionMap = [] ∧
    (handlePeerMessage
        { clientId := "A", roomList := ["A"], connectStatus := fun _ => "" }
        "C" (respEnvelope 0 (JSVal.vstr "other"))
        (handlePeerMessage
          { clientId := "A", roomList := ["A"], connectStatus := fun _ => "" }
          "B" (respEnvelope 0 (JSVal.vstr "payload"))
          (registerTransaction 0 7
            ({ txid := 1, transactionMap := [] } : DCState Nat))).1).2.invoked = []) :=
  ⟨⟨by simp, rfl⟩,
   register_resolve_exactly_once
     { clientId := "A", roomList := ["A"], connectStatus := fun _ => "" }
     { clientId := "A", roomList := ["A"], connectStatus := fun _ => "" }
     "B" "C" 7 0 (JSVal.vstr "payload") (JSVal.vstr "other")
     { txid := 1, transactionMap := [] } (by simp) rfl⟩

/-- C8: an envelope matching neither recognized shape (missing or
non-string opcode, unrecognized opcode value, missing or wrong-typed
id, or response without data) is only logged and dropped: the state is
unchanged, nothing is sent, no callback is invoked, and at least one
diagnostic log is produced.  The embedded dispatcher is a total
function, so every inbound pair terminates normally. -/
theorem malformed_envelope_dropped {kappa : Type} (client : Client)
    (pid : String) (c : Content) (s : DCState kappa)
    (h : recognizedEnvelope c = false) :
    (handlePeerMessage client pid c s).1 = s ∧
    (handlePeerMessage client pid c s).2.sent = [] ∧
    (handlePeerMessage client pid c s).2.invoked = [] ∧
    (handlePeerMessage client pid c s).2.logs ≠ [] := by
  obtain ⟨op, idv, dv⟩ := c
  cases op with
  | vstr op =>
    by_cases h1 : op = "testP2PConnection" ∧ idv.isNum = true
    · exact absurd h (by simp [recognizedEnvelope, h1.1, h1.2])
    · by_cases h2 : op = "response" ∧ dv.isUndef = false ∧ idv.isNum = true
      · exact absurd h (by simp [recognizedEnvelope, h2.1, h2.2.1, h2.2.2])
      · have hH : handlePeerMessage client pid
            { opcode := JSVal.vstr op, id := idv, data := dv } s =
            (s, { sent := [], invoked := [],
                  logs := [LogEvent.unsupportedOpcode (JSVal.vstr op)] }) := by
          simp only [handlePeerMessage]
          rw [if_neg h1, if_neg h2]
        rw [hH]
        simp
  | vnum n => simp [handlePeerMessage]
  | vobj o => simp [handlePeerMessage]
  | vundef => simp [handlePeerMessage]

/-- C8 witness: an envelope whose opcode is the number 7. -/
theorem malformed_envelope_dropped_witness :
    recognizedEnvelope
        { opcode := JSVal.vnum 7, id := JSVal.vundef, data := JSVal.vundef } = false ∧
    ((handlePeerMessage
        { clientId := "A", roomList := ["A"], connectStatus := fun _ => "" }
        "B" { opcode := JSVal.vnum 7, id := JSVal.vundef, data := JSVal.vundef }
        ({ txid := 0, transactionMap := [] } : DCState Unit)).1 =
        { txid := 0, transactionMap := [] } ∧
      (handlePeerMessage
        { clientId := "A", roomList := ["A"], connectStatus := fun _ => "" }
        "B" { opcode := JSVal.vnum 7, id := JSVal.vundef, data := JSVal.vundef }
        ({ txid := 0, transactionMap := [] } : DCState Unit)).2.sent = [] ∧
      (handlePeerMessage
        { clientId := "A", roomList := ["A"], connectStatus := fun _ => "" }
        "B" { opcode := JSVal.vnum 7, id := JSVal.vundef, data := JSVal.vundef }
        ({ txid := 0, transactionMap := [] } : DCState Unit)).2.invoked = [] ∧
      (handlePeerMessage
        { clientId := "A", roomList := ["A"], connectStatus := fun _ => "" }
        "B" { opcode := JSVal.vnum 7, id := JSVal.vundef, data := JSVal.vundef }
        ({ txid := 0, transactionMap := [] } : DCState Unit)).2.logs ≠ []) :=
  ⟨rfl,
   malformed_envelope_dropped
     { clientId := "A", roomList := ["A"], connectStatus := fun _ => "" }
     "B" { opcode := JSVal.vnum 7, id := JSVal.vundef, data := JSVal.vundef }
     { txid := 0, transactionMap := [] } rfl⟩

theorem objSet_fresh {o : List (String × JSVal)} {k : String} (v : JSVal)
    (h : k ∉ o.map Prod.fst) : objSet o k v = o ++ [(k, v)] := by
  have hany : o.any (fun p => p.1 == k) = false := by
    rw [List.any_eq_false]
    intro p hp hbeq
    exact h (List.mem_map.mpr ⟨p, hp, by simpa using hbeq⟩)
  simp [objSet, hany]

theorem connectData_foldl (idv : String) (st : String → String) :
    ∀ (l : List String) (acc : List (String × JSVal)), l.Nodup →
      (∀ q ∈ l, q ∉ acc.map Prod.fst) →
      l.foldl (fun a pid =>
          if pid ≠ idv then objSet a pid (JSVal.vstr (st pid)) else a) acc =
        acc ++ (l.filter (fun p => p ≠ idv)).map
          (fun p => (p, JSVal.vstr (st p))) := by
  intro l
  induction l with
  | nil => intro acc _ _; simp
  | cons p l ih =>
    intro acc hnd hacc
    rw [List.nodup_cons] at hnd
    by_cases hp : p = idv
    · have hstep : (p :: l).foldl (fun a pid =>
          if pid ≠ idv then objSet a pid (JSVal.vstr (st pid)) else a) acc =
          l.foldl (fun a pid =>
            if pid ≠ idv then objSet a pid (JSVal.vstr (st pid)) else a) acc := by
        simp [List.foldl_cons, hp]
      rw [hstep, ih acc hnd.2 (fun q hq => hacc q (List.mem_cons_of_mem p hq))]
      simp [hp]
    · have hfresh : objSet acc p (JSVal.vstr (st p)) = acc ++ [(p, JSVal.vstr (st p))] :=
        objSet_fresh _ (hacc p (List.mem_cons_self p l))
      have hstep : (p :: l).foldl (fun a pid =>
          if pid ≠ idv then objSet a pid (JSVal.vstr (st pid)) else a) acc =
          l.foldl (fun a pid =>
            if pid ≠ idv then objSet a pid (JSVal.vstr (st pid)) else a)
            (acc ++ [(p, JSVal.vstr (st p))]) := by
        simp [List.foldl_cons, hp, hfresh]
      rw [hstep, ih (acc ++ [(p, JSVal.vstr (st p))]) hnd.2 ?fresh]
      · simp [hp, List.filter_cons]
      case fresh =>
        intro q hq
        simp only [List.map_append, List.mem_append]
        rintro (hqa | hqp)
        · exact hacc q (List.mem_cons_of_mem p hq) hqa
        · simp at hqp
          exact hnd.1 (hqp ▸ hq)

/-- The responder data object, with distinct room-list entries, is
exactly one status entry per room member other than the local peer, in
room-list order. -/
theorem connectData_spec (client : Client) (h : client.roomList.Nodup) :
    connectData client =
      (client.roomList.filter (fun p => p ≠ client.clientId)).map
        (fun p => (p, JSVal.vstr (client.connectStatus p))) := by
  unfold connectData
  rw [connectData_foldl client.clientId client.connectStatus client.roomList [] h
    (by simp)]
  simp

/-- Reading the `data` keys of a responder payload gives the keys of
its `connectData` object. -/
theorem statusKeys_roomConnectStatusFor (client : Client) :
    statusKeys (roomConnectStatusFor client) = (connectData client).map Prod.fst := by
  have hbe : (("myPeerId" : String) == "data") = false := by decide
  have hbe2 : (("data" : String) == "data") = true := by decide
  simp [statusKeys, getField, roomConnectStatusFor, List.find?, hbe, hbe2]

/-- C1 counterexample: with room members A, B, C, local peer A and
sender B, the reply built by the dispatcher for a connectivity probe
maps B and C — it contains an entry for the requester B, contradicting
the claim that the requester is excluded from the status mapping. -/
theorem responder_includes_requester :
    ((handlePeerMessage
        { clientId := "A", roomList := ["A", "B", "C"],
          connectStatus := fun _ => "is connected" }
        "B"
        { opcode := JSVal.vstr "testP2PConnection", id := JSVal.vnum 0,
          data := JSVal.vundef }
        ({ txid := 0, transactionMap := [] } : DCState Unit)).2.sent.map
      (fun m => (m.rtcId, statusKeys m.body.data))) = [("B", ["B", "C"])] := rfl

/-- C1 amended: for a connectivity probe from `sender`, the dispatcher
replies to `sender` with the local room-connectivity status whose data
mapping excludes exactly the local peer id: its keys are the room
members other than the local peer, in room order — so the requester is
included whenever it is a room member distinct from the local peer,
and no peer outside the room ever appears. -/
theorem responder_reply_keys {kappa : Type} (client : Client)
    (sender : String) (tx : Int) (d : JSVal) (s : DCState kappa)
    (h : client.roomList.Nodup) :
    handlePeerMessage client sender
        { opcode := JSVal.vstr "testP2PConnection", id := JSVal.vnum tx,
          data := d } s =
      (s, { sent := [{ rtcId := sender, channel := "debug",
                       body := { opcode := JSVal.vstr "response",
                                 id := JSVal.vnum tx,
                                 data := roomConnectStatusFor client } }],
            invoked := [],
            logs := [LogEvent.requestHandled sender] }) ∧
    statusKeys (roomConnectStatusFor client) =
      client.roomList.filter (fun p => p ≠ client.clientId) := by
  constructor
  · simp [handlePeerMessage, JSVal.isNum]
  · rw [statusKeys_roomConnectStatusFor, connectData_spec client h,
      List.map_map]
    have hid : (Prod.fst ∘ fun p : String =>
        (p, JSVal.vstr (client.connectStatus p))) = id := rfl
    rw [hid, List.map_id]

/-- C1 amended witness: room A, B, C with local peer A and sender B. -/
theorem responder_reply_keys_witness :
    (["A", "B", "C"] : List String).Nodup ∧
    (handlePeerMessage
        { clientId := "A", roomList := ["A", "B", "C"],
          connectStatus := fun _ => "is connected" }
        "B"
        { opcode := JSVal.vstr "testP2PConnection", id := JSVal.vnum 0,
          data := JSVal.vundef }
        ({ txid := 0, transactionMap := [] } : DCState Unit) =
      ({ txid := 0, transactionMap := [] },
       { sent := [{ rtcId := "B", channel := "debug",
                    body := { opcode := JSVal.vstr "response",
                              id := JSVal.vnum 0,
                              data := roomConnectStatusFor
                                { clientId := "A", roomList := ["A", "B", "C"],
                                  connectStatus := fun _ => "is connected" } } }],
         invoked := [],
         logs := [LogEvent.requestHandled "B"] }) ∧
     statusKeys (roomConnectStatusFor
        { clientId := "A", roomList := ["A", "B", "C"],
          connectStatus := fun _ => "is connected" }) = ["B", "C"]) :=
  ⟨by decide,
   responder_reply_keys
     { clientId := "A", roomList := ["A", "B", "C"],
       connectStatus := fun _ => "is connected" }
     "B" 0 JSVal.vundef { txid := 0, transactionMap := [] } (by decide)⟩

/-! ### Dispatcher characterization lemmas used by the session proofs -/

theorem handle_resolve {kappa : Type} (client : Client) (pid : String)
    (x : Int) (p : JSVal) (s : DCState kappa) (cb : kappa)
    (hp : p.isUndef = false) (hl : lookupTx s.transactionMap x = some cb) :
    handlePeerMessage client pid (respEnvelope x p) s =
      ({ s with transactionMap := eraseTx s.transactionMap x },
       { sent := [], invoked := [(cb, p)], logs := [] }) := by
  simp [handlePeerMessage, respEnvelope, JSVal.isNum, JSVal.numVal, hp, hl]

theorem handle_cases {kappa : Type} (client : Client) (pid : String)
    (c : Content) (s : DCState kappa) :
    ((handlePeerMessage client pid c s).1 = s ∧
      (handlePeerMessage client pid c s).2.invoked = []) ∨
    (∃ cb, lookupTx s.transactionMap c.id.numVal = some cb ∧
      (handlePeerMessage client pid c s).1 =
        { s with transactionMap := eraseTx s.transactionMap c.id.numVal } ∧
      (handlePeerMessage client pid c s).2.invoked = [(cb, c.data)]) := by
  obtain ⟨op, idv, dv⟩ := c
  cases op with
  | vstr op =>
    by_cases h1 : op = "testP2PConnection" ∧ idv.isNum = true
    · left
      constructor <;>
        (simp only [handlePeerMessage]; rw [if_pos h1])
    · by_cases h2 : op = "response" ∧ dv.isUndef = false ∧ idv.isNum = true
      · cases hl : lookupTx s.transactionMap idv.numVal with
        | none =>
          left
          constructor <;>
            (simp only [handlePeerMessage]; rw [if_neg h1, if_pos h2]; simp [hl])
        | some cb =>
          right
          refine ⟨cb, rfl, ?_, ?_⟩ <;>
            (simp only [handlePeerMessage]; rw [if_neg h1, if_pos h2]; simp [hl])
      · left
        constructor <;>
          (simp only [handlePeerMessage]; rw [if_neg h1, if_neg h2])
  | vnum n => left; constructor <;> simp [handlePeerMessage]
  | vobj o => left; constructor <;> simp [handlePeerMessage]
  | vundef => left; constructor <;> simp [handlePeerMessage]

theorem eraseTx_length {kappa : Type} {m : List (Int × kappa)} {x : Int}
    {cb : kappa} (h : lookupTx m x = some cb) :
    (eraseTx m x).length + 1 = m.length := by
  unfold lookupTx at h
  cases hf : m.find? (fun p => p.1 == x) with
  | none => rw [hf] at h; cases h
  | some q =>
    have hmem : q ∈ m := List.mem_of_find?_eq_some hf
    have hq := List.find?_some hf
    have hpos : 0 < m.length := List.length_pos.mpr (List.ne_nil_of_mem hmem)
    unfold eraseTx
    rw [List.length_eraseP_of_mem hmem hq]
    omega

theorem lookupTx_eraseTx_of_ne {kappa : Type} {m : List (Int × kappa)}
    {x y : Int} (h : y ≠ x) : lookupTx (eraseTx m x) y = lookupTx m y := by
  induction m with
  | nil => rfl
  | cons p m ih =>
    unfold eraseTx at ih ⊢
    unfold lookupTx at ih ⊢
    rw [List.eraseP_cons]
    cases hpx : (p.1 == x) with
    | true =>
      have hny : (p.1 == y) = false := by
        have hx : p.1 = x := by simpa using hpx
        rw [hx, beq_eq_false_iff_ne]
        exact fun hxy => h hxy.symm
      simp [List.find?, hny]
    | false =>
      simp only [cond_false, List.find?]
      cases hpy : (p.1 == y) with
      | true => simp
      | false => simpa using ih

theorem lookupTx_isSome_of_mem {kappa : Type} {m : List (Int × kappa)}
    {k : Int} (h : k ∈ m.map Prod.fst) : (lookupTx m k).isSome = true := by
  unfold lookupTx
  cases hf : m.find? (fun p => p.1 == k) with
  | none =>
    obtain ⟨p, hp, hk⟩ := List.mem_map.mp h
    have := List.find?_eq_none.mp hf p hp
    exact absurd (by simpa using hk) this
  | some q => rfl

/-! ### The fan-out initialization of `getP2PDiagnostics` -/

theorem diagnostics_foldl_state :
    ∀ (targets : List String) (s : DCState Unit) (sentAcc : List SentMsg),
      (∀ k ∈ s.transactionMap.map Prod.fst, k < (s.txid : Int)) →
      (targets.foldl diagStep (s, sentAcc)).1 =
      { txid := s.txid + targets.length,
        transactionMap := s.transactionMap ++
          (List.range targets.length).map
            (fun i => (((s.txid + i : Nat) : Int), ())) } := by
  intro targets
  induction targets with
  | nil => intro s sentAcc _; simp
  | cons pid targets ih =>
    intro s sentAcc hkeys
    have hfresh : ((s.txid : Nat) : Int) ∉ s.transactionMap.map Prod.fst :=
      fun hmem => absurd (hkeys _ hmem) (lt_irrefl _)
    have hstep : diagStep (s, sentAcc) pid =
        ({ txid := s.txid + 1,
           transactionMap := s.transactionMap ++ [(((s.txid : Nat) : Int), ())] },
         sentAcc ++ [{ rtcId := pid, channel := "debug",
                       body := { opcode := JSVal.vstr "testP2PConnection",
                                 id := JSVal.vnum ((s.txid : Nat) : Int),
                                 data := JSVal.vundef } }]) := by
      simp [diagStep, getP2PDiagnosticForPeerId, getTxid, registerTransaction,
        setTx_fresh _ hfresh]
    rw [List.foldl_cons, hstep, ih _ _ ?keys]
    · have harith : s.txid + 1 + targets.length = s.txid + (targets.length + 1) := by
        omega
      have hmaps : (List.range targets.length).map
            (fun i => (((s.txid + 1 + i : Nat) : Int), ())) =
          (List.range targets.length).map
            (fun i => (((s.txid + Nat.succ i : Nat) : Int), ())) := by
        apply List.map_congr_left
        intro i _
        have : s.txid + 1 + i = s.txid + Nat.succ i := by omega
        rw [this]
      simp [harith, hmaps, List.append_assoc, List.range_succ_eq_map,
        List.map_cons, List.map_map, Function.comp]
      intro a _
      omega
    case keys =>
      intro k hk
      simp only [List.map_append, List.mem_append] at hk
      rcases hk with hk | hk
      · have := hkeys _ hk
        push_cast
        omega
      · simp at hk
        rw [hk]
        push_cast
        omega

/-- The room membership minus the local peer, as computed by
`getP2PDiagnostics`: `roomList.filter(elem => elem !== myId)`. -/
def roomTargets (client : Client) : List String :=
  client.roomList.filter (fun elem => elem ≠ client.clientId)

/-- A complete diagnostics scenario: one `getP2PDiagnostics` call on a
fresh registry with counter `b`, followed by a list of inbound
dispatcher events. -/
def diagRun (client : Client) (b : Nat) (evs : List (String × Content)) :
    DiagSession :=
  runSession client
    (getP2PDiagnostics client (some ()) { txid := b, transactionMap := [] }).2.1 evs

theorem getP2PDiagnostics_init (client : Client) (b : Nat) :
    (getP2PDiagnostics client (some ()) { txid := b, transactionMap := [] }).2.1 =
      { dc := { txid := b + (roomTargets client).length,
                transactionMap := (List.range (roomTargets client).length).map
                  (fun i => (((b + i : Nat) : Int), ())) },
        roomSize := (roomTargets client).length,
        results := [], completions := [] } := by
  have h := diagnostics_foldl_state (roomTargets client)
    { txid := b, transactionMap := [] } [] (by simp)
  simp only [getP2PDiagnostics, roomTargets] at h ⊢
  rw [h]
  simp

/-- The invariant maintained by every inbound event during a
diagnostics session with expected reply count `N`: the replies
gathered so far plus the still-pending transactions account for all
`N` targets, and the completion callback has fired exactly when no
transaction is pending. -/
def SessInv (N : Nat) (sess : DiagSession) : Prop :=
  sess.roomSize = N ∧
  sess.results.length + sess.dc.transactionMap.length = N ∧
  sess.completions =
    (if sess.dc.transactionMap.length = 0 then [sess.results] else [])

theorem sessionStep_inv (client : Client) (N : Nat) (sess : DiagSession)
    (ev : String × Content) (h : SessInv N sess) :
    SessInv N (sessionStep client sess ev) := by
  obtain ⟨hrs, hlen, hcomp⟩ := h
  rcases handle_cases client ev.1 ev.2 sess.dc with ⟨hs, hi⟩ | ⟨cb, hl, hs, hi⟩
  · simp only [SessInv, sessionStep]
    rw [hs, hi]
    exact ⟨hrs, hlen, hcomp⟩
  · have hL := eraseTx_length hl
    have hLpos : sess.dc.transactionMap.length ≠ 0 := by omega
    have hcompnil : sess.completions = [] := by rw [hcomp, if_neg hLpos]
    simp only [SessInv, sessionStep]
    rw [hs, hi]
    simp only [List.foldl_cons, List.foldl_nil, appendData, hcompnil]
    by_cases hN : (sess.results ++ [ev.2.data]).length = sess.roomSize
    · rw [if_pos hN]
      have hL0 : (eraseTx sess.dc.transactionMap ev.2.id.numVal).length = 0 := by
        simp only [List.length_append, List.length_singleton] at hN
        omega
      refine ⟨hrs, ?_, ?_⟩
      · simp only [List.length_append, List.length_singleton]
        omega
      · rw [if_pos hL0]
        simp
    · rw [if_neg hN]
      have hL0 : (eraseTx sess.dc.transactionMap ev.2.id.numVal).length ≠ 0 := by
        simp only [List.length_append, List.length_singleton] at hN
        omega
      refine ⟨hrs, ?_, ?_⟩
      · simp only [List.length_append, List.length_singleton]
        omega
      · rw [if_neg hL0]

theorem runSession_inv (client : Client) (N : Nat) :
    ∀ (evs : List (String × Content)) (sess : DiagSession), SessInv N sess →
      SessInv N (runSession client sess evs) := by
  intro evs
  induction evs with
  | nil => intro sess h; exact h
  | cons e evs ih =>
    intro sess h
    simp only [runSession, List.foldl_cons]
    exact ih (sessionStep client sess e) (sessionStep_inv client N sess e h)

theorem diagSession_init_inv (client : Client) (b : Nat)
    (h : 1 ≤ (roomTargets client).length) :
    SessInv (roomTargets client).length
      (getP2PDiagnostics client (some ())
        { txid := b, transactionMap := [] }).2.1 := by
  rw [getP2PDiagnostics_init]
  refine ⟨rfl, by simp, ?_⟩
  have : ((List.range (roomTargets client).length).map
      (fun i => (((b + i : Nat) : Int), ()))).length ≠ 0 := by
    rw [List.length_map, List.length_range]
    omega
  simp only [if_neg this]

theorem runSession_empty_registry (client : Client) :
    ∀ (evs : List (String × Content)) (sess : DiagSession),
      sess.dc.transactionMap = [] → sess.completions = [] →
      (runSession client sess evs).completions = [] ∧
      (runSession client sess evs).dc.transactionMap = [] := by
  intro evs
  induction evs with
  | nil => intro sess hm hc; exact ⟨hc, hm⟩
  | cons e evs ih =>
    intro sess hm hc
    simp only [runSession, List.foldl_cons]
    rcases handle_cases client e.1 e.2 sess.dc with ⟨hs, hi⟩ | ⟨cb, hl, hs, hi⟩
    · have hstep : sessionStep client sess e =
          { dc := sess.dc, roomSize := sess.roomSize,
            results := sess.results, completions := sess.completions } := by
        simp only [sessionStep]
        rw [hs, hi]
        rfl
      exact ih _ (by rw [hstep]; exact hm) (by rw [hstep]; exact hc)
    · rw [hm] at hl
      cases hl

/-- C2: with `N ≥ 1` peers in the room besides the local peer, a
`getP2PDiagnostics` call on a fresh registry leads, after any sequence
of inbound dispatcher events, to: the completion callback having fired
at most once; every firing carrying exactly `N` collected entries; the
callback having fired exactly when no transaction of the call is still
pending; and the resolved-reply count plus the pending-transaction
count always equalling `N` (so the callback never fires with only
`N - 1` or fewer replies resolved). -/
theorem getP2PDiagnostics_completes_once (client : Client) (b : Nat)
    (evs : List (String × Content))
    (h : 1 ≤ (roomTargets client).length) :
    (diagRun client b evs).completions.length ≤ 1 ∧
    (∀ r ∈ (diagRun client b evs).completions,
      r.length = (roomTargets client).length) ∧
    ((diagRun client b evs).completions ≠ [] ↔
      (diagRun client b evs).dc.transactionMap.length = 0) ∧
    (diagRun client b evs).results.length +
      (diagRun client b evs).dc.transactionMap.length =
      (roomTargets client).length := by
  obtain ⟨hrs, hlen, hcomp⟩ :=
    runSession_inv client (roomTargets client).length evs _
      (diagSession_init_inv client b h)
  simp only [diagRun]
  refine ⟨?_, ?_, ?_, hlen⟩
  · rw [hcomp]
    split <;> simp
  · intro r hr
    rw [hcomp] at hr
    by_cases h0 : (runSession client
        (getP2PDiagnostics client (some ())
          { txid := b, transactionMap := [] }).2.1 evs).dc.transactionMap.length = 0
    · rw [if_pos h0] at hr
      simp only [List.mem_singleton] at hr
      rw [hr]
      omega
    · rw [if_neg h0] at hr
      cases hr
  · rw [hcomp]
    by_cases h0 : (runSession client
        (getP2PDiagnostics client (some ())
          { txid := b, transactionMap := [] }).2.1 evs).dc.transactionMap.length = 0
    · rw [if_pos h0]
      simp [h0]
    · rw [if_neg h0]
      simp [h0]

/-- A concrete two-member room used by witnesses: local peer A with
remote peer B. -/
def clientAB : Client :=
  { clientId := "A", roomList := ["A", "B"],
    connectStatus := fun _ => "is connected" }

/-- A concrete one-member room used by witnesses: local peer A alone. -/
def clientOnlyA : Client :=
  { clientId := "A", roomList := ["A"],
    connectStatus := fun _ => "is connected" }

/-- C2 witness: room A, B with local peer A; the single reply resolves
transaction 0 and completes with one entry. -/
theorem getP2PDiagnostics_completes_once_witness :
    1 ≤ (roomTargets clientAB).length ∧
    ((diagRun clientAB 0
        [("B", respEnvelope 0 (JSVal.vobj []))]).completions.length ≤ 1 ∧
      (diagRun clientAB 0
          [("B", respEnvelope 0 (JSVal.vobj []))]).results.length +
        (diagRun clientAB 0
          [("B", respEnvelope 0 (JSVal.vobj []))]).dc.transactionMap.length =
        (roomTargets clientAB).length) :=
  ⟨by decide,
   (getP2PDiagnostics_completes_once clientAB 0
      [("B", respEnvelope 0 (JSVal.vobj []))] (by decide)).1,
   (getP2PDiagnostics_completes_once clientAB 0
      [("B", respEnvelope 0 (JSVal.vobj []))] (by decide)).2.2.2⟩

/-- C5: with nobody in the room besides the local peer, a
`getP2PDiagnostics` call sends no probe and registers no transaction,
and no sequence of later dispatcher events can ever fire the
completion callback. -/
theorem getP2PDiagnostics_empty_room (client : Client) (b : Nat)
    (evs : List (String × Content))
    (h : roomTargets client = []) :
    (getP2PDiagnostics client (some ())
        { txid := b, transactionMap := [] }).2.2 = [] ∧
    (getP2PDiagnostics client (some ())
        { txid := b, transactionMap := [] }).2.1.dc =
      { txid := b, transactionMap := [] } ∧
    (diagRun client b evs).completions = [] := by
  have hinit : (getP2PDiagnostics client (some ())
      { txid := b, transactionMap := [] }) =
      (none, { dc := { txid := b, transactionMap := [] }, roomSize := 0,
               results := [], completions := [] }, []) := by
    unfold roomTargets at h
    simp only [getP2PDiagnostics]
    rw [h]
    rfl
  refine ⟨by rw [hinit], by rw [hinit], ?_⟩
  unfold diagRun
  rw [hinit]
  exact (runSession_empty_registry client evs _ rfl rfl).1

/-- C5 witness: local peer alone in the room; a stray response event
never fires the callback. -/
theorem getP2PDiagnostics_empty_room_witness :
    roomTargets clientOnlyA = [] ∧
    ((getP2PDiagnostics clientOnlyA (some ())
        { txid := 0, transactionMap := [] }).2.2 = [] ∧
      (diagRun clientOnlyA 0
        [("B", respEnvelope 0 (JSVal.vobj []))]).completions = []) :=
  ⟨by decide,
   (getP2PDiagnostics_empty_room clientOnlyA 0
      [("B", respEnvelope 0 (JSVal.vobj []))] (by decide)).1,
   (getP2PDiagnostics_empty_room clientOnlyA 0
      [("B", respEnvelope 0 (JSVal.vobj []))] (by decide)).2.2⟩

theorem appendData_fst (roomSize : Nat) (acc : List JSVal × List (List JSVal))
    (d : JSVal) : (appendData roomSize acc d).1 = acc.1 ++ [d] := by
  simp only [appendData]
  split <;> rfl

/-- The `myPeerId` field of a responder payload is the responding
own identifier of the responding client. -/
theorem getField_myPeerId (c : Client) :
    getField (roomConnectStatusFor c) "myPeerId" = JSVal.vstr c.clientId := rfl

/-- Resolving a duplicate-free batch of pending transaction ids, in
any order, appends exactly the batch payloads to `results` and removes
exactly the batch entries from the registry. -/
theorem runSession_resolve_all (client : Client) :
    ∀ (arr : List (String × Int × JSVal)) (sess : DiagSession),
      (arr.map (fun a => a.2.1)).Nodup →
      (∀ a ∈ arr, a.2.2.isUndef = false) →
      (∀ a ∈ arr, (lookupTx sess.dc.transactionMap a.2.1).isSome = true) →
      (runSession client sess
          (arr.map (fun a => (a.1, respEnvelope a.2.1 a.2.2)))).results =
        sess.results ++ arr.map (fun a => a.2.2) ∧
      (runSession client sess
          (arr.map (fun a => (a.1, respEnvelope a.2.1 a.2.2)))).dc.transactionMap.length
        + arr.length = sess.dc.transactionMap.length := by
  intro arr
  induction arr with
  | nil => intro sess _ _ _; simp [runSession]
  | cons a arr ih =>
    intro sess hnd hdef hpend
    simp only [List.map_cons, List.nodup_cons] at hnd
    obtain ⟨cb, hl⟩ := Option.isSome_iff_exists.mp
      (hpend a (List.mem_cons_self a arr))
    have hstep : sessionStep client sess (a.1, respEnvelope a.2.1 a.2.2) =
        { dc := { txid := sess.dc.txid,
                  transactionMap := eraseTx sess.dc.transactionMap a.2.1 },
          roomSize := sess.roomSize,
          results := sess.results ++ [a.2.2],
          completions := (appendData sess.roomSize
            (sess.results, sess.completions) a.2.2).2 } := by
      simp only [sessionStep]
      rw [handle_resolve client a.1 a.2.1 a.2.2 sess.dc cb
        (hdef a (List.mem_cons_self a arr)) hl]
      simp only [List.foldl_cons, List.foldl_nil]
      rw [show (appendData sess.roomSize (sess.results, sess.completions) a.2.2).1 =
          sess.results ++ [a.2.2] from appendData_fst _ _ _]
    have hlen := eraseTx_length hl
    have htail := ih (sessionStep client sess (a.1, respEnvelope a.2.1 a.2.2))
      hnd.2
      (fun q hq => hdef q (List.mem_cons_of_mem a hq))
      (fun q hq => by
        rw [hstep]
        have hne : q.2.1 ≠ a.2.1 := by
          intro hEq
          exact hnd.1 (List.mem_map.mpr ⟨q, hq, hEq⟩)
        show (lookupTx (eraseTx sess.dc.transactionMap a.2.1) q.2.1).isSome = true
        rw [lookupTx_eraseTx_of_ne hne]
        exact hpend q (List.mem_cons_of_mem a hq))
    rw [hstep] at htail
    obtain ⟨hres, hcount⟩ := htail
    have hres2 : (runSession client sess
        (List.map (fun a => (a.1, respEnvelope a.2.1 a.2.2)) (a :: arr))).results =
        (sess.results ++ [a.2.2]) ++ List.map (fun a => a.2.2) arr := by
      rw [← hres, List.map_cons]
      rw [show runSession client sess
          ((a.1, respEnvelope a.2.1 a.2.2) ::
            List.map (fun a => (a.1, respEnvelope a.2.1 a.2.2)) arr) =
          runSession client (sessionStep client sess (a.1, respEnvelope a.2.1 a.2.2))
            (List.map (fun a => (a.1, respEnvelope a.2.1 a.2.2)) arr) from rfl]
      rw [hstep]
    have hcount2 : (runSession client sess
        (List.map (fun a => (a.1, respEnvelope a.2.1 a.2.2)) (a :: arr))).dc.transactionMap.length
        + arr.length = (eraseTx sess.dc.transactionMap a.2.1).length := by
      rw [← hcount, List.map_cons]
      rw [show runSession client sess
          ((a.1, respEnvelope a.2.1 a.2.2) ::
            List.map (fun a => (a.1, respEnvelope a.2.1 a.2.2)) arr) =
          runSession client (sessionStep client sess (a.1, respEnvelope a.2.1 a.2.2))
            (List.map (fun a => (a.1, respEnvelope a.2.1 a.2.2)) arr) from rfl]
      rw [hstep]
    constructor
    · rw [hres2]
      simp
    · rw [List.length_cons]
      omega

/-- C6: in a full protocol run — each queried peer answers its probe
with its own responder payload, and the replies arrive in an arbitrary
order `sigma` — the aggregate handed to the completion callback is
exactly one entry per queried peer: as a multiset it equals the
payloads of the queried peers themselves, and projecting each entry to its
`myPeerId` field gives exactly the queried peer identifiers.  The
aggregate therefore determines a complete mapping from every queried
peer to the status mapping owned by that peer. -/
theorem getP2PDiagnostics_aggregate (client : Client) (env : String → Client)
    (b : Nat) (sigma : List (Nat × String))
    (h1 : 1 ≤ (roomTargets client).length)
    (h2 : sigma.Perm
      ((List.range (roomTargets client).length).zip (roomTargets client)))
    (h3 : ∀ t ∈ roomTargets client, (env t).clientId = t) :
    (diagRun client b (sigma.map (fun q =>
        (q.2, respEnvelope ((b + q.1 : Nat) : Int)
          (roomConnectStatusFor (env q.2)))))).completions =
      [sigma.map (fun q => roomConnectStatusFor (env q.2))] ∧
    (sigma.map (fun q => roomConnectStatusFor (env q.2))).Perm
      ((roomTargets client).map (fun t => roomConnectStatusFor (env t))) ∧
    ((sigma.map (fun q => roomConnectStatusFor (env q.2))).map
        (fun v => getField v "myPeerId")).Perm
      ((roomTargets client).map JSVal.vstr) := by
  have hzlen : ((List.range (roomTargets client).length).zip
      (roomTargets client)).length = (roomTargets client).length := by
    simp
  have hslen : sigma.length = (roomTargets client).length := by
    rw [h2.length_eq, hzlen]
  have hfst : (sigma.map Prod.fst).Perm
      (List.range (roomTargets client).length) := by
    have hp := h2.map Prod.fst
    rwa [List.map_fst_zip _ _ (by simp)] at hp
  have hinj : Function.Injective (fun i : Nat => ((b + i : Nat) : Int)) := by
    intro i j hij
    have := Nat.cast_inj.mp hij
    omega
  have hnodup : ((sigma.map (fun q => (q.2, (((b + q.1 : Nat) : Int),
      roomConnectStatusFor (env q.2))))).map (fun a => a.2.1)).Nodup := by
    rw [List.map_map]
    have : ((sigma.map Prod.fst).map (fun i => ((b + i : Nat) : Int))).Nodup :=
      (hfst.nodup_iff.mpr (List.nodup_range _)).map hinj
    rw [List.map_map] at this
    exact this
  have hdef : ∀ a ∈ sigma.map (fun q => (q.2, (((b + q.1 : Nat) : Int),
      roomConnectStatusFor (env q.2)))), a.2.2.isUndef = false := by
    intro a ha
    obtain ⟨q, _, rfl⟩ := List.mem_map.mp ha
    rfl
  have hpend : ∀ a ∈ sigma.map (fun q => (q.2, (((b + q.1 : Nat) : Int),
      roomConnectStatusFor (env q.2)))),
      (lookupTx (getP2PDiagnostics client (some ())
        { txid := b, transactionMap := [] }).2.1.dc.transactionMap
        a.2.1).isSome = true := by
    intro a ha
    obtain ⟨q, hq, rfl⟩ := List.mem_map.mp ha
    have hq1 : q.1 < (roomTargets client).length := by
      have hzmem := h2.subset hq
      have := (List.of_mem_zip (a := q.1) (b := q.2) (by
        simpa using hzmem)).1
      exact List.mem_range.mp this
    apply lookupTx_isSome_of_mem
    rw [getP2PDiagnostics_init]
    show ((b + q.1 : Nat) : Int) ∈
      ((List.range (roomTargets client).length).map
        (fun i => (((b + i : Nat) : Int), ()))).map Prod.fst
    rw [List.map_map]
    exact List.mem_map.mpr ⟨q.1, List.mem_range.mpr hq1, rfl⟩
  have hall := runSession_resolve_all client
    (sigma.map (fun q => (q.2, (((b + q.1 : Nat) : Int),
      roomConnectStatusFor (env q.2)))))
    (getP2PDiagnostics client (some ()) { txid := b, transactionMap := [] }).2.1
    hnodup hdef hpend
  have hev : (sigma.map (fun q => (q.2, (((b + q.1 : Nat) : Int),
      roomConnectStatusFor (env q.2))))).map
        (fun a => (a.1, respEnvelope a.2.1 a.2.2)) =
      sigma.map (fun q => (q.2, respEnvelope ((b + q.1 : Nat) : Int)
        (roomConnectStatusFor (env q.2)))) := by
    rw [List.map_map]
    rfl
  have hpay : (sigma.map (fun q => (q.2, (((b + q.1 : Nat) : Int),
      roomConnectStatusFor (env q.2))))).map (fun a => a.2.2) =
      sigma.map (fun q => roomConnectStatusFor (env q.2)) := by
    rw [List.map_map]
    rfl
  rw [hev, hpay] at hall
  rw [getP2PDiagnostics_init] at hall
  simp only [List.length_map, List.length_range, List.nil_append] at hall
  obtain ⟨hres, hcount⟩ := hall
  have hcount0 : (runSession client
      (getP2PDiagnostics client (some ())
        { txid := b, transactionMap := [] }).2.1
      (sigma.map (fun q => (q.2, respEnvelope ((b + q.1 : Nat) : Int)
        (roomConnectStatusFor (env q.2)))))).dc.transactionMap.length = 0 := by
    rw [getP2PDiagnostics_init]
    omega
  obtain ⟨hrs, hlenI, hcomp⟩ :=
    runSession_inv client (roomTargets client).length
      (sigma.map (fun q => (q.2, respEnvelope ((b + q.1 : Nat) : Int)
        (roomConnectStatusFor (env q.2))))) _
      (diagSession_init_inv client b h1)
  have hsndzip : ((List.range (roomTargets client).length).zip
      (roomTargets client)).map Prod.snd = roomTargets client :=
    List.map_snd_zip _ _ (by simp)
  have hzipmap : ((List.range (roomTargets client).length).zip
      (roomTargets client)).map (fun q => roomConnectStatusFor (env q.2)) =
      (roomTargets client).map (fun t => roomConnectStatusFor (env t)) := by
    conv_rhs => rw [← hsndzip, List.map_map]
    rfl
  have hperm1 : (sigma.map (fun q => roomConnectStatusFor (env q.2))).Perm
      ((roomTargets client).map (fun t => roomConnectStatusFor (env t))) := by
    have hp := h2.map (fun q => roomConnectStatusFor (env q.2))
    rwa [hzipmap] at hp
  refine ⟨?_, hperm1, ?_⟩
  · unfold diagRun
    rw [hcomp, if_pos hcount0, getP2PDiagnostics_init, hres]
  · have hcollapse : ((sigma.map (fun q => roomConnectStatusFor (env q.2))).map
        (fun v => getField v "myPeerId")) =
        sigma.map (fun q => JSVal.vstr (env q.2).clientId) := by
      rw [List.map_map]
      rfl
    rw [hcollapse]
    have hzipmap2 : ((List.range (roomTargets client).length).zip
        (roomTargets client)).map (fun q => JSVal.vstr (env q.2).clientId) =
        (roomTargets client).map (fun t => JSVal.vstr (env t).clientId) := by
      conv_rhs => rw [← hsndzip, List.map_map]
      rfl
    have hp := h2.map (fun q => JSVal.vstr (env q.2).clientId)
    rw [hzipmap2] at hp
    have hcongr : (roomTargets client).map
        (fun t => JSVal.vstr (env t).clientId) =
        (roomTargets client).map JSVal.vstr :=
      List.map_congr_left (fun t ht => by rw [h3 t ht])
    rwa [hcongr] at hp

/-- A concrete peer environment for witnesses: every peer sees the
room A, B and reports itself under its own identifier. -/
def envAB : String → Client := fun t =>
  { clientId := t, roomList := ["A", "B"],
    connectStatus := fun _ => "is connected" }

/-- C6 witness: local peer A queries B; the single reply carries the
responder payload of B and the aggregate is exactly that entry. -/
theorem getP2PDiagnostics_aggregate_witness :
    (1 ≤ (roomTargets clientAB).length ∧
      [((0 : Nat), "B")].Perm
        ((List.range (roomTargets clientAB).length).zip (roomTargets clientAB)) ∧
      ∀ t ∈ roomTargets clientAB, (envAB t).clientId = t) ∧
    (diagRun clientAB 0 (List.map (fun q =>
        (q.2, respEnvelope ((0 + q.1 : Nat) : Int)
          (roomConnectStatusFor (envAB q.2)))) [((0 : Nat), "B")])).completions =
      [List.map (fun q => roomConnectStatusFor (envAB q.2)) [((0 : Nat), "B")]] :=
  ⟨⟨by decide, List.Perm.refl _, by decide⟩,
   (getP2PDiagnostics_aggregate clientAB envAB 0 [((0 : Nat), "B")]
      (by decide) (List.Perm.refl _) (by decide)).1⟩

end DebugConsole
